import Mathlib

/-!
Verification of the HTTP/2-to-HTTP/1 adaptor connection (`2to1/conn.go`,
package `http2to1`) of `zero-rtt-http2-mitm-proxy`.

The Go source is shallowly embedded: bytes are `Nat` (0..255), Go slices are
`List Nat`, Go `(T, error)` results are `Except String T` or `Nat × Option
String`, and the external collaborators of the adaptor (the HPACK decoder
`hpack.Decoder.DecodeFull`, the TLS dialer `tls.Dial` with its ALPN
negotiation, and the upstream connection write) are parameters collected in
an `Env` record, since they live outside this repository. All state the Go
code mutates (`peekBuf`, `h2conn`, the `h2ConnCreated` channel) is carried in
an explicit `H2AdaptorConn` record, together with two observation traces
(the chunks written to the upstream connection, and the dial attempts) that
record the calls the Go code makes on its collaborators.
-/

namespace Http2to1

/-- A Go byte slice: a list of byte values. -/
abbrev Bytes := List Nat

/-- A Go `error` value, identified by its message. -/
abbrev GoErr := String

/-- `connectionPreface` from conn.go: the ASCII bytes of
`PRI * HTTP/2.0\r\n\r\nSM\r\n\r\n`. -/
def connectionPreface : Bytes :=
  [80, 82, 73, 32, 42, 32, 72, 84, 84, 80, 47, 50, 46, 48,
   13, 10, 13, 10, 83, 77, 13, 10, 13, 10]

/-- An `hpack.HeaderField`: a decoded header name/value pair. -/
structure HeaderField where
  name : String
  value : String
deriving DecidableEq

/-- The frames `tryPeekHeaders` distinguishes: `http2.HeadersFrame`,
`http2.ContinuationFrame`, and every other frame type (ignored by the loop).
For the two interesting kinds we keep the stream id, the END_HEADERS flag and
the header-block fragment, exactly the data the Go switch consumes. -/
inductive Frame where
  | headers (streamID : Nat) (endHeaders : Bool) (fragment : Bytes)
  | continuation (streamID : Nat) (endHeaders : Bool) (fragment : Bytes)
  | other
deriving DecidableEq

/-- Per-type payload parsing of the external framer (`golang.org/x/net/http2`)
as exercised by `tryPeekHeaders`. HEADERS (type 1): stream id 0 is an error;
the PADDED flag (0x8) consumes a pad-length byte, the PRIORITY flag (0x20)
consumes five bytes, and the fragment is the payload minus those fields and
the trailing padding (padding larger than the remaining payload is an
error). CONTINUATION (type 9): stream id 0 is an error, the whole payload is
the fragment. END_HEADERS is flag 0x4 on both. Any other type is returned as
an opaque frame. -/
def parseFramePayload (ftype flags streamID : Nat) (payload : Bytes) :
    Except GoErr Frame :=
  if ftype = 1 then
    if streamID = 0 then .error "HEADERS frame with stream ID 0"
    else
      let step1 : Except GoErr (Nat × Bytes) :=
        if flags.testBit 3 then
          match payload with
          | [] => .error "frame too short"
          | padLen :: p => .ok (padLen, p)
        else .ok (0, payload)
      match step1 with
      | .error e => .error e
      | .ok (padLength, p1) =>
        let step2 : Except GoErr Bytes :=
          if flags.testBit 5 then
            if p1.length < 5 then .error "frame too short" else .ok (p1.drop 5)
          else .ok p1
        match step2 with
        | .error e => .error e
        | .ok p2 =>
          if p2.length < padLength then .error "pad too big"
          else .ok (.headers streamID (flags.testBit 2)
                      (p2.take (p2.length - padLength)))
  else if ftype = 9 then
    if streamID = 0 then .error "CONTINUATION frame with stream ID 0"
    else .ok (.continuation streamID (flags.testBit 2) payload)
  else .ok .other

/-- `framer.ReadFrame` of the external framer on buffered bytes: a nine byte
frame header (24-bit big-endian length, type byte, flags byte, 31-bit stream
id with the reserved bit masked), a length bound of 16384 (the default
`maxReadSize`), the payload, and the per-type parse. Any shortfall or parse
failure is an error; on success the frame and the remaining bytes are
returned. -/
def ReadFrame : Bytes → Except GoErr (Frame × Bytes)
  | b0 :: b1 :: b2 :: b3 :: b4 :: b5 :: b6 :: b7 :: b8 :: rest =>
    let flen := b0 * 65536 + b1 * 256 + b2
    if 16384 < flen then .error "frame too large"
    else if rest.length < flen then .error "unexpected EOF"
    else
      match parseFramePayload b3 b4
          ((b5 % 128) * 16777216 + b6 * 65536 + b7 * 256 + b8)
          (rest.take flen) with
      | .error e => .error e
      | .ok f => .ok (f, rest.drop flen)
  | _ => .error "EOF"

/-- Outcome of `tryPeekHeaders`, which returns `([]byte, error)` in Go:
`notEnough` is `(nil, nil)` (any framer error is swallowed as
not-enough-data), `found` is a complete header block, `protoError` is a
non-nil error. -/
inductive PeekResult where
  | notEnough
  | found (headersBuf : Bytes)
  | protoError (e : GoErr)
deriving DecidableEq

/-- Lookup in the model of the Go map `streamHeaderBufs`. -/
def lookupAssoc : List (Nat × Bytes) → Nat → Option Bytes
  | [], _ => none
  | (k, v) :: rest, key => if k = key then some v else lookupAssoc rest key

/-- Update in the model of the Go map `streamHeaderBufs`. -/
def setAssoc : List (Nat × Bytes) → Nat → Bytes → List (Nat × Bytes)
  | [], key, val => [(key, val)]
  | (k, v) :: rest, key, val =>
    if k = key then (k, val) :: rest else (k, v) :: setAssoc rest key val

/-- The `for` loop of `tryPeekHeaders`, with the per-attempt map of
per-stream header assembly buffers made explicit. A framer error yields
`notEnough` (the Go code returns `nil, nil`); a HEADERS frame appends its
fragment to the buffer of that stream, creating it on demand, and returns the
assembled block when END_HEADERS is set; a CONTINUATION frame for a stream
with no open buffer is the protocol error, otherwise it appends and likewise
returns on END_HEADERS; any other frame is skipped. The fuel argument only
bounds the recursion; since every parsed frame consumes at least nine bytes,
fuel exceeding the buffer length is never exhausted. -/
def tryPeekHeadersLoop : Nat → Bytes → List (Nat × Bytes) → PeekResult
  | 0, _, _ => .notEnough
  | fuel + 1, bs, bufs =>
    match ReadFrame bs with
    | .error _ => .notEnough
    | .ok (.headers sid endH frag, rest) =>
      let newBuf := (lookupAssoc bufs sid).getD [] ++ frag
      if endH then .found newBuf
      else tryPeekHeadersLoop fuel rest (setAssoc bufs sid newBuf)
    | .ok (.continuation sid endH frag, rest) =>
      match lookupAssoc bufs sid with
      | none => .protoError "continuation frame received before headers frame"
      | some old =>
        let newBuf := old ++ frag
        if endH then .found newBuf
        else tryPeekHeadersLoop fuel rest (setAssoc bufs sid newBuf)
    | .ok (.other, rest) => tryPeekHeadersLoop fuel rest bufs

/-- `H2AdaptorConn.tryPeekHeaders`: parse a working copy of the current
`peekBuf` (the real buffer is untouched, which the functional embedding
gives for free) and report the first complete header block, not-enough-data,
or the continuation-before-headers protocol error. -/
def tryPeekHeaders (bs : Bytes) : PeekResult :=
  tryPeekHeadersLoop (bs.length + 1) bs []

/-- A `net.Conn` the dialer can hand back: either the raw TLS connection
itself (the `h2` branch), identified by an id, or the value of
`newHttp2OverHttp1Conn` on such a connection (the `http/1.1` branch). -/
inductive NetConn where
  | tls (id : Nat)
  | http2OverHttp1 (id : Nat)
deriving DecidableEq

/-- Modelled from the spec: `newHttp2OverHttp1Conn` lives in another file of
this repository (not under `src/`); per the spec it is the bridging
factory of the bridging adaptor, `wrap(rawConnection) -> connection`, wrapping an
established encrypted connection that speaks the legacy protocol. It is kept
opaque: the wrap of the TLS connection with the given id. -/
def newHttp2OverHttp1Conn (tlsConn : Nat) : NetConn :=
  NetConn.http2OverHttp1 tlsConn

/-- Modelled from the spec: `getValueByKeyFromHeaders` lives in another file
of this repository (not under `src/`); per the spec it extracts the value of
a pseudo-header field from the decoded fields by exact, case-sensitive name
match, and yields the empty string when the field is absent. -/
def getValueByKeyFromHeaders : List HeaderField → String → String
  | [], _ => ""
  | h :: rest, key =>
    if h.name = key then h.value else getValueByKeyFromHeaders rest key

/-- The external collaborators of the adaptor, none of which are code of this
repository: `decodeFull` is `hpack.NewDecoder(4096, nil).DecodeFull` (a
fresh decoding context, as `onHeadersBuf` creates one per call), `tlsDial`
is `tls.Dial` on the given address together with the ALPN protocol the
handshake negotiated (observed synchronously via `VerifyConnection` and the
channel in `dialHTTP2Conn`), and `upWrite` is the `(count, error)` result of
a `Write` on the upstream connection. -/
structure Env where
  decodeFull : Bytes → Except GoErr (List HeaderField)
  tlsDial : String → Except GoErr (Nat × String)
  upWrite : Bytes → Nat × Option GoErr

/-- The mutable state of an `H2AdaptorConn`: the pending buffer `peekBuf`,
the upstream reference `h2conn` (nil until resolution), and `created`
recording whether the one-shot channel `h2ConnCreated` has been closed.
`upstreamWrites` and `dialCalls` are observation traces: the byte chunks
passed to `h2conn.Write` in order, and the `(authority, scheme)` pairs
passed to `dialHTTP2Conn`. The `decoder` and `writeBuf` fields of the Go
struct are unused by the live code paths and are omitted. -/
structure H2AdaptorConn where
  peekBuf : Bytes
  h2conn : Option NetConn
  created : Bool
  upstreamWrites : List Bytes
  dialCalls : List (String × String)
deriving DecidableEq

/-- `NewH2AdaptorConn`: empty pending buffer, no upstream connection, the
readiness channel still open. -/
def NewH2AdaptorConn : H2AdaptorConn :=
  { peekBuf := [], h2conn := none, created := false,
    upstreamWrites := [], dialCalls := [] }

/-- `H2AdaptorConn.dialHTTP2Conn`: dial `host:443` over TLS advertising
`http/1.1` and `h2`, read the negotiated protocol, and select the upstream
connection: the raw TLS connection for `h2`, its `newHttp2OverHttp1Conn`
wrap for `http/1.1`, and an error for any other negotiated value. Returns
the connection together with the protocol string, as the Go code does. -/
def dialHTTP2Conn (env : Env) (host scheme : String) :
    Except GoErr (NetConn × String) :=
  match env.tlsDial (host ++ ":443") with
  | .error e => .error e
  | .ok (tlsConn, protocol) =>
    if protocol = "h2" then .ok (.tls tlsConn, protocol)
    else if protocol = "http/1.1" then .ok (newHttp2OverHttp1Conn tlsConn, protocol)
    else .error ("unexpected protocol: " ++ protocol)

/-- `H2AdaptorConn.onHeadersBuf`: decode the complete header block with a
fresh decoder, require non-empty `:authority` and `:scheme`, dial the
upstream, send the connection preface followed by the entire pending buffer
as one contiguous write, and on success assign `h2conn` and close
`h2ConnCreated`. Note the Go code never resets `peekBuf`. The unused
`scheme` binder mirrors the unused second argument of the Go
`dialHTTP2Conn`. -/
def onHeadersBuf (env : Env) (c : H2AdaptorConn) (headersBuf : Bytes) :
    H2AdaptorConn × Option GoErr :=
  match env.decodeFull headersBuf with
  | .error e => (c, some e)
  | .ok headers =>
    let authority := getValueByKeyFromHeaders headers ":authority"
    let scheme := getValueByKeyFromHeaders headers ":scheme"
    if authority = "" ∨ scheme = "" then
      (c, some "authority or scheme not found in headers")
    else
      let c1 := { c with dialCalls := c.dialCalls ++ [(authority, scheme)] }
      match dialHTTP2Conn env authority scheme with
      | .error e => (c1, some e)
      | .ok (h2conn, _) =>
        let flushed := connectionPreface ++ c1.peekBuf
        let c2 := { c1 with upstreamWrites := c1.upstreamWrites ++ [flushed] }
        match env.upWrite flushed with
        | (_, some e) => (c2, some e)
        | (_, none) => ({ c2 with h2conn := some h2conn, created := true }, none)

/-- `H2AdaptorConn.Write`: an input equal to the connection preface is
acknowledged with `(len(buf), nil)` and nothing else happens (this check
precedes the `h2conn` test). Otherwise, before resolution the input is
appended to `peekBuf` (a `bytes.Buffer` write, which always succeeds with
the full length), the whole buffer is re-peeked, and a found header block is
handed to `onHeadersBuf`; every error returns count 0. After resolution the
input is written to the upstream connection and its result returned
unchanged. -/
def Write (env : Env) (c : H2AdaptorConn) (buf : Bytes) :
    H2AdaptorConn × (Nat × Option GoErr) :=
  if buf = connectionPreface then
    (c, (buf.length, none))
  else
    match c.h2conn with
    | none =>
      let c1 := { c with peekBuf := c.peekBuf ++ buf }
      match tryPeekHeaders c1.peekBuf with
      | .notEnough => (c1, (buf.length, none))
      | .protoError e => (c1, (0, some e))
      | .found headersBuf =>
        match onHeadersBuf env c1 headersBuf with
        | (c2, some e) => (c2, (0, some e))
        | (c2, none) => (c2, (buf.length, none))
    | some _ =>
      ({ c with upstreamWrites := c.upstreamWrites ++ [buf] }, env.upWrite buf)

/-- Run a sequence of `Write` calls, keeping the final connection state. -/
def runWrites (env : Env) : H2AdaptorConn → List Bytes → H2AdaptorConn
  | c, [] => c
  | c, b :: rest => runWrites env (Write env c b).1 rest

/-- Concatenation of a list of byte chunks. -/
def concatAll : List Bytes → Bytes
  | [] => []
  | b :: rest => b ++ concatAll rest

/-- A stub environment for concrete runs: the header block `[1, 2, 3]`
decodes to `:authority = example.com`, `:scheme = https`; dialing
`example.com:443` succeeds with negotiated protocol `h2` on TLS connection
7; upstream writes always succeed in full. -/
def stubEnv : Env :=
  { decodeFull := fun bs =>
      if bs = [1, 2, 3] then
        .ok [{ name := ":authority", value := "example.com" },
             { name := ":scheme", value := "https" }]
      else .error "hpack: decode error",
    tlsDial := fun addr =>
      if addr = "example.com:443" then .ok (7, "h2")
      else .error "dial tcp: connection refused",
    upWrite := fun b => (b.length, none) }

/-- A complete HEADERS frame with END_HEADERS on stream 1 whose payload is
the stub header block `[1, 2, 3]`. -/
def frameW3 : Bytes := [0, 0, 3, 1, 4, 0, 0, 0, 1, 1, 2, 3]

/-- A CONTINUATION frame with END_HEADERS unset on stream 1, arriving with
no preceding HEADERS frame. -/
def contFrame : Bytes := [0, 0, 3, 9, 0, 0, 0, 0, 1, 9, 9, 9]

/-- A structurally invalid but complete frame: a HEADERS frame with stream
id 0 (its declared zero-length payload is fully present, so this is not an
incomplete input). -/
def malformedHeadersFrame : Bytes := [0, 0, 0, 1, 4, 0, 0, 0, 0]

/-- The connection preface split in two: its first ten bytes. -/
def prefacePart1 : Bytes := connectionPreface.take 10

/-- The connection preface split in two: its remaining fourteen bytes. -/
def prefacePart2 : Bytes := connectionPreface.drop 10

/-- A stub environment whose decoded header block carries `:scheme` but no
`:authority`. -/
def stubEnvNoAuthority : Env :=
  { decodeFull := fun _ => .ok [{ name := ":scheme", value := "https" }],
    tlsDial := fun _ => .ok (7, "h2"),
    upWrite := fun b => (b.length, none) }

/-- A stub environment whose TLS handshake negotiates `http/1.1`. -/
def stubEnvH1 : Env :=
  { decodeFull := fun _ => .error "hpack: decode error",
    tlsDial := fun _ => .ok (5, "http/1.1"),
    upWrite := fun b => (b.length, none) }

/-- A stub environment whose TLS handshake negotiates an unexpected third
protocol token. -/
def stubEnvBadProto : Env :=
  { decodeFull := fun _ => .error "hpack: decode error",
    tlsDial := fun _ => .ok (6, "spdy/3"),
    upWrite := fun b => (b.length, none) }

/-- The per-trace invariant tying an adaptor connection to the sequence of
chunks written so far (none equal to the preface): before resolution
nothing has been written upstream and the pending buffer holds exactly the
concatenation of the chunks; after resolution the upstream has received
exactly the preface followed by that concatenation. -/
def TraceInv (c : H2AdaptorConn) (ws : List Bytes) : Prop :=
  (c.h2conn = none → c.upstreamWrites = [] ∧ c.peekBuf = concatAll ws) ∧
  (c.h2conn ≠ none →
    concatAll c.upstreamWrites = connectionPreface ++ concatAll ws)

/-- The frame walk of a peek attempt, from a buffer and a map of open
per-stream assembly buffers, can reach a point where the framer fails to
parse the next frame: either immediately, or after stepping over a HEADERS
frame without END_HEADERS, a CONTINUATION frame without END_HEADERS whose
stream has an open buffer, or a frame of any other type — the steps that
make the loop continue. -/
inductive ReachesParseError : Bytes → List (Nat × Bytes) → Prop where
  | base (bs : Bytes) (bufs : List (Nat × Bytes)) (e : GoErr) :
      ReadFrame bs = .error e → ReachesParseError bs bufs
  | stepHeaders (bs : Bytes) (bufs : List (Nat × Bytes)) (sid : Nat)
      (frag rest : Bytes) :
      ReadFrame bs = .ok (.headers sid false frag, rest) →
      ReachesParseError rest
        (setAssoc bufs sid ((lookupAssoc bufs sid).getD [] ++ frag)) →
      ReachesParseError bs bufs
  | stepCont (bs : Bytes) (bufs : List (Nat × Bytes)) (sid : Nat)
      (frag rest old : Bytes) :
      ReadFrame bs = .ok (.continuation sid false frag, rest) →
      lookupAssoc bufs sid = some old →
      ReachesParseError rest (setAssoc bufs sid (old ++ frag)) →
      ReachesParseError bs bufs
  | stepOther (bs : Bytes) (bufs : List (Nat × Bytes)) (rest : Bytes) :
      ReadFrame bs = .ok (.other, rest) →
      ReachesParseError rest bufs →
      ReachesParseError bs bufs

/-- The frame walk of a peek attempt can reach a CONTINUATION frame whose
stream has no open assembly buffer, via the same continuing steps. -/
inductive ReachesOrphanCont : Bytes → List (Nat × Bytes) → Prop where
  | base (bs : Bytes) (bufs : List (Nat × Bytes)) (sid : Nat) (endH : Bool)
      (frag rest : Bytes) :
      ReadFrame bs = .ok (.continuation sid endH frag, rest) →
      lookupAssoc bufs sid = none →
      ReachesOrphanCont bs bufs
  | stepHeaders (bs : Bytes) (bufs : List (Nat × Bytes)) (sid : Nat)
      (frag rest : Bytes) :
      ReadFrame bs = .ok (.headers sid false frag, rest) →
      ReachesOrphanCont rest
        (setAssoc bufs sid ((lookupAssoc bufs sid).getD [] ++ frag)) →
      ReachesOrphanCont bs bufs
  | stepCont (bs : Bytes) (bufs : List (Nat × Bytes)) (sid : Nat)
      (frag rest old : Bytes) :
      ReadFrame bs = .ok (.continuation sid false frag, rest) →
      lookupAssoc bufs sid = some old →
      ReachesOrphanCont rest (setAssoc bufs sid (old ++ frag)) →
      ReachesOrphanCont bs bufs
  | stepOther (bs : Bytes) (bufs : List (Nat × Bytes)) (rest : Bytes) :
      ReadFrame bs = .ok (.other, rest) →
      ReachesOrphanCont rest bufs →
      ReachesOrphanCont bs bufs

example : tryPeekHeaders [0, 0, 3, 1, 4, 0, 0, 0, 1, 1, 2, 3]
    = .found [1, 2, 3] := by decide

example : tryPeekHeaders [0, 0] = .notEnough := by decide

example : tryPeekHeaders [0, 0, 3, 9, 0, 0, 0, 0, 1, 9, 9, 9]
    = .protoError "continuation frame received before headers frame" := by
  decide

example :
    runWrites stubEnv NewH2AdaptorConn [frameW3] =
      { peekBuf := frameW3, h2conn := some (.tls 7), created := true,
        upstreamWrites := [connectionPreface ++ frameW3],
        dialCalls := [("example.com", "https")] } := by decide

/-- A successfully parsed frame consumes at least its nine header bytes. -/
theorem ReadFrame_length {bs : Bytes} {f : Frame} {rest : Bytes}
    (h : ReadFrame bs = .ok (f, rest)) : rest.length + 9 ≤ bs.length := by
  unfold ReadFrame at h
  split at h
  case h_1 b0 b1 b2 b3 b4 b5 b6 b7 b8 rest0 =>
    simp only [] at h
    split at h
    · exact absurd h (by simp)
    · split at h
      · exact absurd h (by simp)
      · split at h
        · exact absurd h (by simp)
        · simp only [Except.ok.injEq, Prod.mk.injEq] at h
          obtain ⟨-, rfl⟩ := h
          simp only [List.length_drop, List.length_cons]
          omega
  case h_2 => exact absurd h (by simp)

/-- With adequate fuel, a walk that reaches a parse failure makes the loop
report not-enough-data. -/
theorem tryPeekHeadersLoop_notEnough {bs : Bytes} {bufs : List (Nat × Bytes)}
    (h : ReachesParseError bs bufs) :
    ∀ fuel, bs.length < fuel → tryPeekHeadersLoop fuel bs bufs = .notEnough := by
  induction h with
  | base bs bufs e hread =>
    intro fuel hf
    obtain ⟨f, rfl⟩ : ∃ f, fuel = f + 1 := ⟨fuel - 1, by omega⟩
    simp [tryPeekHeadersLoop, hread]
  | stepHeaders bs bufs sid frag rest hread _ ih =>
    intro fuel hf
    have hlen := ReadFrame_length hread
    obtain ⟨f, rfl⟩ : ∃ f, fuel = f + 1 := ⟨fuel - 1, by omega⟩
    simp only [tryPeekHeadersLoop, hread]
    exact ih f (by omega)
  | stepCont bs bufs sid frag rest old hread hlook _ ih =>
    intro fuel hf
    have hlen := ReadFrame_length hread
    obtain ⟨f, rfl⟩ : ∃ f, fuel = f + 1 := ⟨fuel - 1, by omega⟩
    simp only [tryPeekHeadersLoop, hread, hlook]
    exact ih f (by omega)
  | stepOther bs bufs rest hread _ ih =>
    intro fuel hf
    have hlen := ReadFrame_length hread
    obtain ⟨f, rfl⟩ : ∃ f, fuel = f + 1 := ⟨fuel - 1, by omega⟩
    simp only [tryPeekHeadersLoop, hread]
    exact ih f (by omega)

/-- With adequate fuel, a walk that reaches an orphan CONTINUATION makes the
loop report the protocol error. -/
theorem tryPeekHeadersLoop_protoError {bs : Bytes} {bufs : List (Nat × Bytes)}
    (h : ReachesOrphanCont bs bufs) :
    ∀ fuel, bs.length < fuel →
      tryPeekHeadersLoop fuel bs bufs
        = .protoError "continuation frame received before headers frame" := by
  induction h with
  | base bs bufs sid endH frag rest hread hlook =>
    intro fuel hf
    obtain ⟨f, rfl⟩ : ∃ f, fuel = f + 1 := ⟨fuel - 1, by omega⟩
    simp [tryPeekHeadersLoop, hread, hlook]
  | stepHeaders bs bufs sid frag rest hread _ ih =>
    intro fuel hf
    have hlen := ReadFrame_length hread
    obtain ⟨f, rfl⟩ : ∃ f, fuel = f + 1 := ⟨fuel - 1, by omega⟩
    simp only [tryPeekHeadersLoop, hread]
    exact ih f (by omega)
  | stepCont bs bufs sid frag rest old hread hlook _ ih =>
    intro fuel hf
    have hlen := ReadFrame_length hread
    obtain ⟨f, rfl⟩ : ∃ f, fuel = f + 1 := ⟨fuel - 1, by omega⟩
    simp only [tryPeekHeadersLoop, hread, hlook]
    exact ih f (by omega)
  | stepOther bs bufs rest hread _ ih =>
    intro fuel hf
    have hlen := ReadFrame_length hread
    obtain ⟨f, rfl⟩ : ∃ f, fuel = f + 1 := ⟨fuel - 1, by omega⟩
    simp only [tryPeekHeadersLoop, hread]
    exact ih f (by omega)

/-- A walk reaching a parse failure makes `tryPeekHeaders` soft-fail. -/
theorem tryPeekHeaders_notEnough {bs : Bytes} (h : ReachesParseError bs []) :
    tryPeekHeaders bs = .notEnough :=
  tryPeekHeadersLoop_notEnough h _ (Nat.lt_succ_self _)

/-- A walk reaching an orphan CONTINUATION makes `tryPeekHeaders` report the
protocol error. -/
theorem tryPeekHeaders_protoError {bs : Bytes} (h : ReachesOrphanCont bs []) :
    tryPeekHeaders bs
      = .protoError "continuation frame received before headers frame" :=
  tryPeekHeadersLoop_protoError h _ (Nat.lt_succ_self _)

/-- `onHeadersBuf` never touches the pending buffer, on any of its paths. -/
theorem onHeadersBuf_peekBuf (env : Env) (c : H2AdaptorConn) (hb : Bytes) :
    (onHeadersBuf env c hb).1.peekBuf = c.peekBuf := by
  unfold onHeadersBuf
  split
  · rfl
  · dsimp only
    split
    · rfl
    · split
      · rfl
      · split
        · rfl
        · rfl

/-- `concatAll` distributes over list append. -/
theorem concatAll_append (xs ys : List Bytes) :
    concatAll (xs ++ ys) = concatAll xs ++ concatAll ys := by
  induction xs with
  | nil => simp [concatAll]
  | cons b rest ih => simp [concatAll, ih]

/-- C4: a pre-resolution Write whose buffered input runs out of bytes
mid-frame or fails to parse structurally makes the peek attempt report
not-enough-data rather than an error; the Write returns success with the
full length, and the state is unchanged except for the appended input bytes
(the upstream reference stays absent, nothing is forwarded or dialed); the
next Write re-parses the whole buffer, since `tryPeekHeaders` is applied to
the entire buffered input each time. -/
theorem c4_softfail_write_success (env : Env) (c : H2AdaptorConn)
    (buf : Bytes)
    (hconn : c.h2conn = none) (hpre : buf ≠ connectionPreface)
    (herr : ReachesParseError (c.peekBuf ++ buf) []) :
    tryPeekHeaders (c.peekBuf ++ buf) = .notEnough ∧
    Write env c buf =
      ({ c with peekBuf := c.peekBuf ++ buf }, (buf.length, none)) := by
  have hpk := tryPeekHeaders_notEnough herr
  refine ⟨hpk, ?_⟩
  unfold Write
  rw [if_neg hpre, hconn]
  dsimp only
  rw [hpk]

theorem c4_softfail_write_success_witness :
    tryPeekHeaders (NewH2AdaptorConn.peekBuf ++ [0, 0]) = .notEnough ∧
    Write stubEnv NewH2AdaptorConn [0, 0] =
      ({ NewH2AdaptorConn with peekBuf := NewH2AdaptorConn.peekBuf ++ [0, 0] },
       (2, none)) :=
  c4_softfail_write_success stubEnv NewH2AdaptorConn [0, 0] rfl (by decide)
    (ReachesParseError.base _ _ "EOF" rfl)

/-- C5 counterexample: `malformedHeadersFrame` is structurally invalid frame
data (a complete HEADERS frame with stream id 0, which the framer rejects),
yet the pre-resolution Write that buffers it returns success `(9, nil)`
instead of a protocol-violation error. -/
theorem c5_malformed_frame_counterexample :
    ReadFrame malformedHeadersFrame = .error "HEADERS frame with stream ID 0" ∧
    Write stubEnv NewH2AdaptorConn malformedHeadersFrame =
      ({ NewH2AdaptorConn with peekBuf := malformedHeadersFrame },
       (9, none)) := by
  exact ⟨rfl, by decide⟩

/-- C5 amended: a pre-resolution Write surfaces an error only when the peek
attempt did not soft-fail — that is, only for the continuation-received-
before-headers protocol error or for a failure during resolution of a
complete header block; structurally invalid frame data, like incomplete
input, is swallowed as not-enough-data and the Write reports success. -/
theorem c5_error_provenance_amended (env : Env) (c : H2AdaptorConn)
    (buf : Bytes) (e : GoErr)
    (hconn : c.h2conn = none) (hpre : buf ≠ connectionPreface)
    (herr : (Write env c buf).2.2 = some e) :
    tryPeekHeaders (c.peekBuf ++ buf) ≠ .notEnough := by
  intro hpk
  unfold Write at herr
  rw [if_neg hpre, hconn] at herr
  dsimp only at herr
  rw [hpk] at herr
  exact absurd herr (by simp)

theorem c5_error_provenance_amended_witness :
    tryPeekHeaders (NewH2AdaptorConn.peekBuf ++ contFrame)
      ≠ .notEnough :=
  c5_error_provenance_amended stubEnv NewH2AdaptorConn contFrame
    "continuation frame received before headers frame" rfl (by decide)
    (by decide)

/-- C6: whenever the frame walk over the buffered input reaches a
CONTINUATION frame for a stream with no previously opened header-assembly
buffer, the peek reports the protocol error `continuation frame received
before headers frame` and the triggering pre-resolution Write returns that
error with count 0 — never a silent no-op. -/
theorem c6_orphan_continuation_error (env : Env) (c : H2AdaptorConn)
    (buf : Bytes)
    (hconn : c.h2conn = none) (hpre : buf ≠ connectionPreface)
    (horph : ReachesOrphanCont (c.peekBuf ++ buf) []) :
    Write env c buf =
      ({ c with peekBuf := c.peekBuf ++ buf },
       (0, some "continuation frame received before headers frame")) := by
  have hpk := tryPeekHeaders_protoError horph
  unfold Write
  rw [if_neg hpre, hconn]
  dsimp only
  rw [hpk]

theorem c6_orphan_continuation_error_witness :
    Write stubEnv NewH2AdaptorConn contFrame =
      ({ NewH2AdaptorConn with
          peekBuf := NewH2AdaptorConn.peekBuf ++ contFrame },
       (0, some "continuation frame received before headers frame")) :=
  c6_orphan_continuation_error stubEnv NewH2AdaptorConn contFrame rfl
    (by decide)
    (ReachesOrphanCont.base _ _ 1 false [9, 9, 9] [] rfl rfl)

/-- C10: a pre-resolution Write that returns no error reports the full
input length as its count; one that returns an error reports count 0 while
the input bytes remain appended to the pending buffer (no rollback). -/
theorem c10_write_return_count (env : Env) (c : H2AdaptorConn)
    (buf : Bytes) (hconn : c.h2conn = none) :
    ((Write env c buf).2.2 = none → (Write env c buf).2.1 = buf.length) ∧
    ((Write env c buf).2.2 ≠ none →
      (Write env c buf).2.1 = 0 ∧
      (Write env c buf).1.peekBuf = c.peekBuf ++ buf) := by
  obtain ⟨pb, h2c, cr, uw, dc⟩ := c
  have hc : h2c = none := hconn
  subst hc
  by_cases hpre : buf = connectionPreface
  · unfold Write
    rw [if_pos hpre]
    exact ⟨fun _ => by rw [hpre], fun hne => absurd rfl hne⟩
  · unfold Write
    rw [if_neg hpre]
    dsimp only
    cases hpk : tryPeekHeaders (pb ++ buf) with
    | notEnough =>
      exact ⟨fun _ => rfl, fun hne => absurd rfl hne⟩
    | protoError e =>
      exact ⟨fun h => absurd h (by simp), fun _ => ⟨rfl, rfl⟩⟩
    | found hb =>
      dsimp only
      have hpb := onHeadersBuf_peekBuf env
        ⟨pb ++ buf, none, cr, uw, dc⟩ hb
      cases hob : onHeadersBuf env ⟨pb ++ buf, none, cr, uw, dc⟩ hb with
      | mk c2 r =>
        rw [hob] at hpb
        cases r with
        | none => exact ⟨fun _ => rfl, fun hne => absurd rfl hne⟩
        | some e =>
          exact ⟨fun h => absurd h (by simp), fun _ => ⟨rfl, hpb⟩⟩

/-- Under an upstream whose writes always succeed in full, `onHeadersBuf`
either fails leaving the upstream reference, the upstream write trace and
the pending buffer untouched, or succeeds having assigned the upstream
reference and appended exactly one upstream write, the preface followed by
the whole pending buffer, again leaving the pending buffer untouched. -/
theorem onHeadersBuf_reliable (env : Env)
    (hup : ∀ b, env.upWrite b = (b.length, none))
    (c : H2AdaptorConn) (hb : Bytes) :
    (∃ e, (onHeadersBuf env c hb).2 = some e ∧
      (onHeadersBuf env c hb).1.h2conn = c.h2conn ∧
      (onHeadersBuf env c hb).1.upstreamWrites = c.upstreamWrites ∧
      (onHeadersBuf env c hb).1.peekBuf = c.peekBuf) ∨
    (∃ conn, (onHeadersBuf env c hb).2 = none ∧
      (onHeadersBuf env c hb).1.h2conn = some conn ∧
      (onHeadersBuf env c hb).1.upstreamWrites
        = c.upstreamWrites ++ [connectionPreface ++ c.peekBuf] ∧
      (onHeadersBuf env c hb).1.peekBuf = c.peekBuf) := by
  unfold onHeadersBuf
  split
  · exact Or.inl ⟨_, rfl, rfl, rfl, rfl⟩
  · dsimp only
    split
    · exact Or.inl ⟨_, rfl, rfl, rfl, rfl⟩
    · split
      · exact Or.inl ⟨_, rfl, rfl, rfl, rfl⟩
      · rw [hup]
        exact Or.inr ⟨_, rfl, rfl, rfl, rfl⟩

/-- A single Write of a chunk different from the preface preserves the
trace invariant, under an upstream whose writes always succeed in full. -/
theorem Write_TraceInv (env : Env)
    (hup : ∀ b, env.upWrite b = (b.length, none))
    (c : H2AdaptorConn) (ws : List Bytes) (buf : Bytes)
    (hbuf : buf ≠ connectionPreface) (hinv : TraceInv c ws) :
    TraceInv (Write env c buf).1 (ws ++ [buf]) := by
  obtain ⟨pb, h2c, cr, uw, dc⟩ := c
  obtain ⟨h1, h2⟩ := hinv
  cases h2c with
  | none =>
    have hw : uw = [] := (h1 rfl).1
    have hpb : pb = concatAll ws := (h1 rfl).2
    have hconcat : pb ++ buf = concatAll (ws ++ [buf]) := by
      rw [hpb, concatAll_append]
      simp [concatAll]
    unfold Write
    rw [if_neg hbuf]
    dsimp only
    cases hpk : tryPeekHeaders (pb ++ buf) with
    | notEnough =>
      exact ⟨fun _ => ⟨hw, hconcat⟩, fun hne => absurd rfl hne⟩
    | protoError e =>
      exact ⟨fun _ => ⟨hw, hconcat⟩, fun hne => absurd rfl hne⟩
    | found hb =>
      dsimp only
      cases hob : onHeadersBuf env ⟨pb ++ buf, none, cr, uw, dc⟩ hb with
      | mk c2 r =>
        have hrel := onHeadersBuf_reliable env hup
          ⟨pb ++ buf, none, cr, uw, dc⟩ hb
        rw [hob] at hrel
        dsimp only at hrel
        rcases hrel with ⟨e, he, hh, hu, hp⟩ | ⟨conn, he, hh, hu, hp⟩
        · subst he
          exact ⟨fun _ => ⟨hu.trans hw, hp.trans hconcat⟩,
                 fun hne => absurd hh hne⟩
        · subst he
          constructor
          · intro h2n
            rw [h2n] at hh
            exact absurd hh.symm (by simp)
          · intro _
            rw [hu, hw, hconcat]
            simp [concatAll]
  | some uc =>
    have h2' : concatAll uw = connectionPreface ++ concatAll ws :=
      h2 (by simp)
    unfold Write
    rw [if_neg hbuf]
    dsimp only
    constructor
    · intro h2n
      exact absurd h2n (by simp)
    · intro _
      rw [concatAll_append, h2', concatAll_append]
      simp [concatAll, List.append_assoc]

/-- Running a sequence of non-preface Writes preserves the trace
invariant. -/
theorem runWrites_TraceInv (env : Env)
    (hup : ∀ b, env.upWrite b = (b.length, none)) :
    ∀ (ws : List Bytes) (c : H2AdaptorConn) (ws0 : List Bytes),
      (∀ w ∈ ws, w ≠ connectionPreface) → TraceInv c ws0 →
      TraceInv (runWrites env c ws) (ws0 ++ ws) := by
  intro ws
  induction ws with
  | nil =>
    intro c ws0 _ hinv
    simpa [runWrites] using hinv
  | cons b rest ih =>
    intro c ws0 hws hinv
    have hstep := Write_TraceInv env hup c ws0 b (hws b (by simp)) hinv
    have hrest := ih (Write env c b).1 (ws0 ++ [b])
      (fun w hw => hws w (by simp [hw])) hstep
    simpa [runWrites, List.append_assoc] using hrest

/-- C1: for every adaptor connection and every sequence of Write calls none
of which equals the connection preface, if resolution has occurred (the
upstream reference is assigned) and the upstream accepts every write in
full, then the bytes delivered to the upstream connection — the single
pre-resolution flush followed by all post-resolution forwarded Writes,
concatenated — equal the connection preface followed by the exact
concatenation of all the written chunks in order, with no byte duplicated
and none dropped. -/
theorem c1_order_preservation (env : Env) (ws : List Bytes)
    (hup : ∀ b, env.upWrite b = (b.length, none))
    (hws : ∀ w ∈ ws, w ≠ connectionPreface)
    (hres : (runWrites env NewH2AdaptorConn ws).h2conn ≠ none) :
    concatAll (runWrites env NewH2AdaptorConn ws).upstreamWrites
      = connectionPreface ++ concatAll ws := by
  have hinv0 : TraceInv NewH2AdaptorConn [] :=
    ⟨fun _ => ⟨rfl, rfl⟩, fun hne => absurd rfl hne⟩
  have h := runWrites_TraceInv env hup ws NewH2AdaptorConn [] hws hinv0
  rw [List.nil_append] at h
  exact h.2 hres

theorem c1_order_preservation_witness :
    concatAll (runWrites stubEnv NewH2AdaptorConn
        [frameW3, [5, 5], [6]]).upstreamWrites
      = connectionPreface ++ concatAll [frameW3, [5, 5], [6]] :=
  c1_order_preservation stubEnv [frameW3, [5, 5], [6]] (fun _ => rfl)
    (by decide) (by decide)

/-- C7: when the decoded header block lacks a usable `:authority` or
`:scheme` (absent fields decode to the empty string in the lookup, and
empty values fail the same test), the pre-resolution Write that found the
block returns the routing error with count 0 and leaves the state — in
particular the `dialCalls` trace — unchanged apart from the appended input:
the upstream dialer is never invoked. -/
theorem c7_missing_routing_fields (env : Env) (c : H2AdaptorConn)
    (buf hb : Bytes) (headers : List HeaderField)
    (hconn : c.h2conn = none) (hpre : buf ≠ connectionPreface)
    (hpk : tryPeekHeaders (c.peekBuf ++ buf) = .found hb)
    (hdec : env.decodeFull hb = .ok headers)
    (hmiss : getValueByKeyFromHeaders headers ":authority" = "" ∨
             getValueByKeyFromHeaders headers ":scheme" = "") :
    Write env c buf =
      ({ c with peekBuf := c.peekBuf ++ buf },
       (0, some "authority or scheme not found in headers")) := by
  obtain ⟨pb, h2c, cr, uw, dc⟩ := c
  have hc : h2c = none := hconn
  subst hc
  unfold Write
  rw [if_neg hpre]
  dsimp only
  have hpk' : tryPeekHeaders (pb ++ buf) = .found hb := hpk
  rw [hpk']
  dsimp only
  unfold onHeadersBuf
  rw [hdec]
  dsimp only
  rw [if_pos hmiss]

theorem c7_missing_routing_fields_witness :
    Write stubEnvNoAuthority NewH2AdaptorConn frameW3 =
      ({ NewH2AdaptorConn with
          peekBuf := NewH2AdaptorConn.peekBuf ++ frameW3 },
       (0, some "authority or scheme not found in headers")) :=
  c7_missing_routing_fields stubEnvNoAuthority NewH2AdaptorConn frameW3
    [1, 2, 3] [{ name := ":scheme", value := "https" }] rfl (by decide)
    (by decide) rfl (Or.inl rfl)

/-- C8: the upstream connection is selected by the negotiated ALPN token:
`h2` uses the raw TLS connection verbatim, `http/1.1` wraps it with
`newHttp2OverHttp1Conn`, and any other token — including the empty string
reported when nothing was negotiated — makes `dialHTTP2Conn` return an
error and produce no connection; a TLS dial failure likewise. -/
theorem c8_negotiation_branches (env : Env) (host scheme : String) :
    (∀ t : Nat, env.tlsDial (host ++ ":443") = .ok (t, "h2") →
      dialHTTP2Conn env host scheme = .ok (.tls t, "h2")) ∧
    (∀ t : Nat, env.tlsDial (host ++ ":443") = .ok (t, "http/1.1") →
      dialHTTP2Conn env host scheme
        = .ok (newHttp2OverHttp1Conn t, "http/1.1")) ∧
    (∀ (t : Nat) (p : String), env.tlsDial (host ++ ":443") = .ok (t, p) →
      p ≠ "h2" → p ≠ "http/1.1" →
      dialHTTP2Conn env host scheme = .error ("unexpected protocol: " ++ p)) ∧
    (∀ e : GoErr, env.tlsDial (host ++ ":443") = .error e →
      dialHTTP2Conn env host scheme = .error e) := by
  refine ⟨?_, ?_, ?_, ?_⟩
  · intro t ht
    unfold dialHTTP2Conn
    rw [ht]
    simp
  · intro t ht
    unfold dialHTTP2Conn
    rw [ht]
    simp
  · intro t p ht hp1 hp2
    unfold dialHTTP2Conn
    rw [ht]
    simp [hp1, hp2]
  · intro e he
    unfold dialHTTP2Conn
    rw [he]

theorem c8_negotiation_branches_witness :
    dialHTTP2Conn stubEnv "example.com" "https" = .ok (.tls 7, "h2") ∧
    dialHTTP2Conn stubEnvH1 "example.com" "https"
      = .ok (.http2OverHttp1 5, "http/1.1") ∧
    dialHTTP2Conn stubEnvBadProto "example.com" "https"
      = .error "unexpected protocol: spdy/3" ∧
    dialHTTP2Conn stubEnv "other.com" "https"
      = .error "dial tcp: connection refused" :=
  ⟨(c8_negotiation_branches stubEnv "example.com" "https").1 7 rfl,
   (c8_negotiation_branches stubEnvH1 "example.com" "https").2.1 5 rfl,
   (c8_negotiation_branches stubEnvBadProto "example.com" "https").2.2.1 6
     "spdy/3" rfl (by decide) (by decide),
   (c8_negotiation_branches stubEnv "other.com" "https").2.2.2
     "dial tcp: connection refused" rfl⟩

/-- C9 counterexample: on a concrete successful resolution (a single Write
of a complete HEADERS frame under the stub environment), the connection
transitions to Live — the upstream reference is assigned and the readiness
channel closed — yet the pending buffer still holds the buffered bytes: the
code never discards `peekBuf`, contradicting the claim that after the
transition the pending buffer is empty. -/
theorem c9_buffer_not_discarded_counterexample :
    (runWrites stubEnv NewH2AdaptorConn [frameW3]).h2conn = some (.tls 7) ∧
    (runWrites stubEnv NewH2AdaptorConn [frameW3]).created = true ∧
    (runWrites stubEnv NewH2AdaptorConn [frameW3]).peekBuf = frameW3 ∧
    frameW3 ≠ [] := by
  refine ⟨by decide, by decide, by decide, by decide⟩

/-- C9 amended: on a successful resolution, `onHeadersBuf` sends the
connection preface plus the entire pending buffer to the new upstream
connection as one contiguous write, assigns the upstream reference and
fires the readiness signal — but the pending buffer is not discarded: it
still holds the buffered bytes after the transition to Live (they are
simply never read again, since later Writes bypass the buffer). -/
theorem c9_resolution_effects_amended (env : Env) (c : H2AdaptorConn)
    (hb : Bytes) (headers : List HeaderField) (conn : NetConn)
    (proto : String) (n : Nat)
    (hdec : env.decodeFull hb = .ok headers)
    (hauth : getValueByKeyFromHeaders headers ":authority" ≠ "")
    (hschm : getValueByKeyFromHeaders headers ":scheme" ≠ "")
    (hdial : dialHTTP2Conn env (getValueByKeyFromHeaders headers ":authority")
        (getValueByKeyFromHeaders headers ":scheme") = .ok (conn, proto))
    (hup : env.upWrite (connectionPreface ++ c.peekBuf) = (n, none)) :
    onHeadersBuf env c hb =
      ({ c with
          dialCalls := c.dialCalls ++
            [(getValueByKeyFromHeaders headers ":authority",
              getValueByKeyFromHeaders headers ":scheme")],
          upstreamWrites := c.upstreamWrites ++
            [connectionPreface ++ c.peekBuf],
          h2conn := some conn, created := true }, none) := by
  unfold onHeadersBuf
  rw [hdec]
  dsimp only
  rw [if_neg (by push_neg; exact ⟨hauth, hschm⟩), hdial]
  dsimp only
  rw [hup]

theorem c9_resolution_effects_amended_witness :
    onHeadersBuf stubEnv { NewH2AdaptorConn with peekBuf := frameW3 }
        [1, 2, 3] =
      ({ NewH2AdaptorConn with
          peekBuf := frameW3
          dialCalls := [("example.com", "https")]
          upstreamWrites := [connectionPreface ++ frameW3]
          h2conn := some (.tls 7)
          created := true }, none) :=
  c9_resolution_effects_amended stubEnv
    { NewH2AdaptorConn with peekBuf := frameW3 } [1, 2, 3]
    [{ name := ":authority", value := "example.com" },
     { name := ":scheme", value := "https" }]
    (.tls 7) "h2" (connectionPreface ++ frameW3).length rfl (by decide)
    (by decide) rfl rfl

/-- C3 counterexample: with the connection Live (reached by resolving a
complete HEADERS frame), a Write of exactly the connection preface is
swallowed by the preface check, which precedes the Live check: the state —
in particular the trace of upstream writes — is unchanged, so the bytes are
not forwarded to the upstream connection, and the returned `(24, nil)` is
synthesized rather than the upstream write result. -/
theorem c3_live_preface_counterexample :
    (runWrites stubEnv NewH2AdaptorConn [frameW3]).h2conn.isSome = true ∧
    Write stubEnv (runWrites stubEnv NewH2AdaptorConn [frameW3])
        connectionPreface =
      (runWrites stubEnv NewH2AdaptorConn [frameW3], (24, none)) := by
  refine ⟨by decide, by decide⟩

/-- C3 amended: while Live, every written byte sequence other than one
exactly equal to the connection preface is forwarded unmodified to the
upstream connection and the upstream write result is returned unchanged; a
Write of exactly the preface is acknowledged with `(len, nil)` without
touching the upstream connection. -/
theorem c3_live_passthrough_amended (env : Env) (c : H2AdaptorConn)
    (uc : NetConn) (buf : Bytes)
    (hconn : c.h2conn = some uc) (hpre : buf ≠ connectionPreface) :
    Write env c buf =
      ({ c with upstreamWrites := c.upstreamWrites ++ [buf] },
       env.upWrite buf) ∧
    Write env c connectionPreface =
      (c, (connectionPreface.length, none)) := by
  constructor
  · unfold Write
    rw [if_neg hpre, hconn]
  · unfold Write
    rw [if_pos rfl]

theorem c3_live_passthrough_amended_witness :
    Write stubEnv (runWrites stubEnv NewH2AdaptorConn [frameW3]) [5, 5] =
      ({ runWrites stubEnv NewH2AdaptorConn [frameW3] with
          upstreamWrites :=
            (runWrites stubEnv NewH2AdaptorConn [frameW3]).upstreamWrites
              ++ [[5, 5]] },
       stubEnv.upWrite [5, 5]) ∧
    Write stubEnv (runWrites stubEnv NewH2AdaptorConn [frameW3])
        connectionPreface =
      (runWrites stubEnv NewH2AdaptorConn [frameW3],
       (connectionPreface.length, none)) :=
  c3_live_passthrough_amended stubEnv
    (runWrites stubEnv NewH2AdaptorConn [frameW3]) (.tls 7) [5, 5]
    (by decide) (by decide)

/-- C2 counterexample: the caller writes the connection preface split in
two chunks before any other data, followed by a complete valid HEADERS
frame — under a stub environment with which the HEADERS frame alone
resolves the connection and sends the opening sequence exactly once.
Because neither chunk equals the whole preface, both are buffered; the
buffered stream then starts with bytes whose frame header declares an
oversized length, so every peek soft-fails, the connection never resolves,
and the upstream receives the opening sequence zero times — not exactly
once as claimed. -/
theorem c2_split_preface_counterexample :
    (runWrites stubEnv NewH2AdaptorConn [prefacePart1, prefacePart2, frameW3]
      ).h2conn = none ∧
    (runWrites stubEnv NewH2AdaptorConn [prefacePart1, prefacePart2, frameW3]
      ).upstreamWrites = [] ∧
    (runWrites stubEnv NewH2AdaptorConn [frameW3]).upstreamWrites
      = [connectionPreface ++ frameW3] := by
  refine ⟨by decide, by decide, by decide⟩

/-- C2 amended: a Write of exactly the connection preface, in any state, is
acknowledged in full and not stored, so a caller that writes the preface
verbatim in one call never causes it to be forwarded twice (the flush
re-synthesizes it exactly once); but the at-most-once guarantee does not
survive arbitrary chunking: once the preface bytes sit at the front of the
pending buffer — as happens when the caller splits the preface across
several calls — every peek attempt soft-fails on the oversized declared
frame length, so resolution never occurs no matter what follows. -/
theorem c2_preface_once_amended :
    (∀ (env : Env) (c : H2AdaptorConn),
      Write env c connectionPreface = (c, (connectionPreface.length, none))) ∧
    (∀ rest : Bytes,
      tryPeekHeaders (connectionPreface ++ rest) = .notEnough) := by
  constructor
  · intro env c
    unfold Write
    rw [if_pos rfl]
  · intro rest
    exact tryPeekHeaders_notEnough
      (ReachesParseError.base _ _ "frame too large" rfl)

theorem c10_write_return_count_witness :
    ((Write stubEnv NewH2AdaptorConn contFrame).2.2 ≠ none →
      (Write stubEnv NewH2AdaptorConn contFrame).2.1 = 0 ∧
      (Write stubEnv NewH2AdaptorConn contFrame).1.peekBuf
        = NewH2AdaptorConn.peekBuf ++ contFrame) ∧
    ((Write stubEnv NewH2AdaptorConn frameW3).2.2 = none →
      (Write stubEnv NewH2AdaptorConn frameW3).2.1 = frameW3.length) :=
  ⟨(c10_write_return_count stubEnv NewH2AdaptorConn contFrame rfl).2,
   (c10_write_return_count stubEnv NewH2AdaptorConn frameW3 rfl).1⟩

end Http2to1
